import Mathlib

/-!
Verification of the KapowarrBot comic monitor (`comic_monitor.py`,
`kapowarr.py`) against its natural-language specification.

The embedding below translates the pure decision logic of the monitor:
Python strings become Lean `String`, Python dict payloads become
structures with `Option` fields (`none` models a missing or null key,
and Python truthiness of an integer field is `some n` with `n ≠ 0`),
timestamps become natural numbers counted in minutes, and every
external HTTP call becomes an explicit oracle parameter.
-/

namespace KapowarrBot

/-- Python `str.lower()`, applied characterwise. -/
def lowerStr (s : String) : String :=
  ⟨s.data.map Char.toLower⟩

/-- Does the first character list start the second one?  (Helper for the
Python substring operator.) -/
def strStarts : List Char → List Char → Bool
  | [], _ => true
  | _ :: _, [] => false
  | a :: as, b :: bs => a == b && strStarts as bs

/-- Does the character list `n` occur contiguously inside the second list? -/
def strHasSub (n : List Char) : List Char → Bool
  | [] => n.isEmpty
  | c :: cs => strStarts n (c :: cs) || strHasSub n cs

/-- Python `needle in hay` on strings: contiguous-substring test. -/
def pyIn (needle hay : String) : Bool :=
  strHasSub needle.data hay.data

/-- The `publisher` field of a catalog volume payload: a nested dict with
optional `name` and `id` keys, a flat string, or anything else/absent. -/
inductive PubData where
  | dict (name : Option String) (pid : Option Int)
  | str (s : String)
  | other
deriving DecidableEq

/-- Catalog volume payload, restricted to the keys the monitor reads:
`id`, `name`, `deck`, `start_year`, `publisher`.  `none` models a
missing or null key; `startYear = none` also covers a non-integer value
(the code guards with `isinstance(start_year, int)`). -/
structure Comic where
  id : Option Int
  name : Option String
  deck : Option String
  startYear : Option Int
  publisher : PubData
deriving DecidableEq

/-- `_extract_publisher_name`: dict → its `name` (default "Unknown"),
flat string → itself, anything else → "Unknown". -/
def extractPublisherName (c : Comic) : String :=
  match c.publisher with
  | .dict name _ => name.getD "Unknown"
  | .str s => s
  | .other => "Unknown"

/-- Marvel alias table from `_is_marvel_or_dc_comic`. -/
def marvelPublishers : List String :=
  ["marvel", "marvel comics", "marvel entertainment", "marvel worldwide",
   "marvel entertainment group", "marvel comics group"]

/-- DC alias table from `_is_marvel_or_dc_comic`. -/
def dcPublishers : List String :=
  ["dc", "dc comics", "dc entertainment", "dc universe",
   "detective comics", "detective comics, inc."]

/-- Dark Horse alias table from `_is_marvel_or_dc_comic`. -/
def darkHorsePublishers : List String :=
  ["dark horse", "dark horse comics", "dark horse entertainment"]

/-- `_is_marvel_or_dc_comic`: substring-match the lowercased publisher
name against the three alias tables, then fall back to the embedded
numeric publisher id being one of 31, 10, 16. -/
def isMarvelOrDC (c : Comic) : Bool :=
  let publisherName := lowerStr (extractPublisherName c)
  marvelPublishers.any (fun p => pyIn p publisherName) ||
  dcPublishers.any (fun p => pyIn p publisherName) ||
  darkHorsePublishers.any (fun p => pyIn p publisherName) ||
  (match c.publisher with
   | .dict _ (some pid) => pid == 31 || pid == 10 || pid == 16
   | _ => false)

/-- Static exclusion-term list of `_is_new_series`. -/
def excludeTerms : List String :=
  ["collected", "collection", "omnibus", "complete", "essential",
   "masterworks", "epic collection", "treasury", "archive",
   "reprint", "classic", "golden age", "silver age",
   "hardcover", "trade paperback", "tpb", "graphic novel"]

/-- `_is_new_series`: reject when any exclusion term occurs in the
lowercased name or deck (missing/null treated as empty string), else
reject when `start_year` is a truthy integer below `current_year - 3`.
`datetime.now().year` is passed in as the `currentYear` parameter. -/
def isNewSeries (currentYear : Int) (c : Comic) : Bool :=
  let nameLower := lowerStr (c.name.getD "")
  let deckLower := lowerStr (c.deck.getD "")
  if excludeTerms.any (fun term => pyIn term nameLower || pyIn term deckLower) then
    false
  else
    match c.startYear with
    | some n => if n != 0 && decide (n < currentYear - 3) then false else true
    | none => true

/-! ### Release discovery pipeline (`search_new_releases` and helpers)

HTTP traffic is abstracted away: each ComicVine query's raw `results`
list is a parameter, and the client-side filtering/merging/dedup logic
is embedded exactly.  `currentYear` stands for `datetime.now().year`. -/

/-- The fuzzy publisher-name check of `_search_publisher_releases_by_id`
(lines 619-621): keyed on the monitored publisher's display name. -/
def fuzzyPublisherMatch (publisherName : String) (pubNameLower : String) : Bool :=
  (publisherName == "Marvel" && pyIn "marvel" pubNameLower) ||
  (publisherName == "DC" && (pyIn "dc" pubNameLower || pyIn "detective comics" pubNameLower)) ||
  (publisherName == "Dark Horse" && pyIn "dark horse" pubNameLower)

/-- Per-comic keep decision of the publisher post-filter in
`_search_publisher_releases_by_id`: keep on an exact embedded-id match,
otherwise keep only if the Marvel/DC allow-list check succeeds together
with the fuzzy name match for the queried publisher. -/
def keepPub (publisherName : String) (publisherId : Int) (c : Comic) : Bool :=
  (match c.publisher with
   | .dict _ pid => pid == some publisherId
   | _ => false) ||
  (isMarvelOrDC c && fuzzyPublisherMatch publisherName (lowerStr (extractPublisherName c)))

/-- `_search_publisher_releases_by_id` applied to a raw results list:
publisher post-filter, then the new-series heuristic. -/
def processPubRaw (currentYear : Int) (publisherName : String) (publisherId : Int)
    (raw : List Comic) : List Comic :=
  ((raw.filter (keepPub publisherName publisherId)).filter (isNewSeries currentYear))

/-- `_search_recent_releases_all` applied to a raw results list:
Marvel/DC allow-list filter, then the new-series heuristic. -/
def processFallbackRaw (currentYear : Int) (raw : List Comic) : List Comic :=
  ((raw.filter isMarvelOrDC).filter (isNewSeries currentYear))

/-- The concatenated per-publisher results of `search_new_releases`
(the `new_comics` list before the fallback step), for the three
monitored publishers Marvel (31), DC (10), Dark Horse (16). -/
def primaryOf (currentYear : Int) (rawMarvel rawDC rawDarkHorse : List Comic) : List Comic :=
  processPubRaw currentYear "Marvel" 31 rawMarvel ++
  processPubRaw currentYear "DC" 10 rawDC ++
  processPubRaw currentYear "Dark Horse" 16 rawDarkHorse

/-- `search_new_releases` lines 534-541: when fewer than 5 primary
results were found, run the fallback query and append exactly those
fallback comics whose `id` is not already among the primary ids. -/
def mergedOf (currentYear : Int) (rawMarvel rawDC rawDarkHorse rawFallback : List Comic) :
    List Comic :=
  if (primaryOf currentYear rawMarvel rawDC rawDarkHorse).length < 5 then
    primaryOf currentYear rawMarvel rawDC rawDarkHorse ++
      (processFallbackRaw currentYear rawFallback).filter
        (fun c => decide (c.id ∉ (primaryOf currentYear rawMarvel rawDC rawDarkHorse).map Comic.id))
  else
    primaryOf currentYear rawMarvel rawDC rawDarkHorse

/-- The final dedup loop of `search_new_releases` (lines 543-559):
walk the merged list, keep a comic when its id is truthy, not seen
among previously inserted ids, and the comic passes the Marvel/DC
check; `seen` carries the ids inserted so far. -/
def finalDedupGo (seen : List Int) : List Comic → List Comic
  | [] => []
  | c :: cs =>
    match c.id with
    | some n =>
      if n != 0 && !(seen.contains n) then
        if isMarvelOrDC c then c :: finalDedupGo (n :: seen) cs
        else finalDedupGo seen cs
      else finalDedupGo seen cs
    | none => finalDedupGo seen cs

/-- The final dedup loop started with no seen ids. -/
def finalDedup (comics : List Comic) : List Comic :=
  finalDedupGo [] comics

/-- `search_new_releases` as a whole, with the four raw query results
as parameters. -/
def searchNewReleases (currentYear : Int)
    (rawMarvel rawDC rawDarkHorse rawFallback : List Comic) : List Comic :=
  finalDedup (mergedOf currentYear rawMarvel rawDC rawDarkHorse rawFallback)

/-- Modelled from the spec: "Deduplicate by catalog identifier (first
occurrence wins)" — keep exactly the first occurrence of each truthy
catalog identifier, in input order, with no publisher re-check.  Used
as the comparison point for the dedup refinement claim. -/
def specDedupGo (seen : List Int) : List Comic → List Comic
  | [] => []
  | c :: cs =>
    match c.id with
    | some n =>
      if n != 0 && !(seen.contains n) then c :: specDedupGo (n :: seen) cs
      else specDedupGo seen cs
    | none => specDedupGo seen cs

/-- The spec-modelled dedup started with no seen ids. -/
def specDedup (comics : List Comic) : List Comic :=
  specDedupGo [] comics

/-- The catalog identifiers of a comic list, in order, dropping
comics without an id. -/
def resultIds (comics : List Comic) : List Int :=
  comics.filterMap Comic.id

/-! ### Queue poller and notification dedup ledger

Timestamps are natural numbers counted in minutes (the code compares
with `timedelta(minutes=30)`, `timedelta(hours=24)` = 1440 and
`timedelta(hours=48)` = 2880). -/

/-- The `notified_downloads` dict: notification key → last-notified
timestamp, with at most one entry per key. -/
abbrev Ledger : Type := List (String × Nat)

/-- Dict lookup on the ledger. -/
def ledgerGet (key : String) : Ledger → Option Nat
  | [] => none
  | (k, t) :: rest => if k == key then some t else ledgerGet key rest

/-- Dict assignment `self.notified_downloads[key] = t` (overwrites any
previous entry for the key). -/
def ledgerSet (key : String) (t : Nat) (l : Ledger) : Ledger :=
  (key, t) :: (l.filter (fun kv => !(kv.1 == key)) : List (String × Nat))

/-- A download-queue item, restricted to the keys `_process_queue_item`
reads: `volume_id`, `id`, `status` (default "Unknown"), `progress`
(default 0).  `none`/`some 0` are the falsy integer values. -/
structure QueueItem where
  volumeId : Option Int
  downloadId : Option Int
  status : String
  progress : Int
deriving DecidableEq

/-- Python truthiness of an optional integer field. -/
def truthyId : Option Int → Bool
  | none => false
  | some n => n != 0

/-- The composite notification key built at line 202:
f-string "download_{download_id}_{status}" with the lowercased status. -/
def notificationKey (downloadId : Int) (statusLower : String) : String :=
  "download_" ++ toString downloadId ++ "_" ++ statusLower

/-- The notification key of a queue item (lowercasing applied as in the
code). -/
def itemKey (item : QueueItem) : String :=
  notificationKey (item.downloadId.getD 0) (lowerStr item.status)

/-- The statuses that trigger a notification (lines 213-216). -/
def notifyStatuses : List String :=
  ["queued", "downloading", "snatched", "grabbed", "completed",
   "importing", "failed", "canceled", "cancelled", "finished"]

/-- Outcome parameters of `_send_download_notification`: the config
flag `COMIC_NOTIFICATIONS_ENABLED`, whether the Discord channel was
found, and whether the actual channel send raised (the function
swallows all of these and returns normally either way). -/
structure SendCfg where
  enabled : Bool
  channelFound : Bool
  sendFails : Bool
deriving DecidableEq

/-- `_send_download_notification` reduced to whether a Discord message
was actually delivered: early-returns when notifications are disabled
or the channel is missing, and a raising send is caught internally. -/
def sendDownloadNotification (cfg : SendCfg) : Bool :=
  if !cfg.enabled then false
  else if !cfg.channelFound then false
  else !cfg.sendFails

/-- `_process_queue_item` as a pure step: given the current time, the
item, whether `get_volume_details` succeeds (`volOk`), and the ledger,
return the new ledger, whether the notification path was taken
(`_send_download_notification` invoked and the key recorded), and
whether a Discord message was actually delivered. -/
def processQueueItem (cfg : SendCfg) (now : Nat) (item : QueueItem) (volOk : Bool)
    (ledger : Ledger) : Ledger × Bool × Bool :=
  if !(truthyId item.volumeId) || !(truthyId item.downloadId) then
    (ledger, false, false)
  else
    let status := lowerStr item.status
    let key := notificationKey (item.downloadId.getD 0) status
    let suppressed : Bool :=
      match ledgerGet key ledger with
      | some lastNotification =>
        if (status == "downloading" || status == "queued") && decide (0 < item.progress) then
          decide (now - lastNotification < 30)
        else
          true
      | none => false
    if suppressed then
      (ledger, false, false)
    else if notifyStatuses.contains status then
      if volOk then
        (ledgerSet key now ledger, true, sendDownloadNotification cfg)
      else
        (ledger, false, false)
    else
      (ledger, false, false)

/-- Monitor state shared between polls: the dedup ledger and the time
of the last garbage-collection pass. -/
structure MonitorState where
  notifiedDownloads : Ledger
  lastCleanup : Nat

/-- `_cleanup_old_notifications`: when more than 24 hours (1440 min)
passed since the last sweep, delete every ledger entry whose timestamp
is older than 48 hours (2880 min) and remember the sweep time. -/
def cleanupOldNotifications (now : Nat) (st : MonitorState) : MonitorState :=
  if 1440 < now - st.lastCleanup then
    { notifiedDownloads :=
        (st.notifiedDownloads.filter (fun kv => !(decide (kv.2 < now - 2880))) : Ledger),
      lastCleanup := now }
  else
    st

/-- Process a list of queue items at one poll time, threading the
ledger and counting how many notification sends were attempted.  Each
item carries its own `get_volume_details` outcome. -/
def processItems (cfg : SendCfg) (now : Nat) :
    List (QueueItem × Bool) → Ledger → Ledger × Nat
  | [], ledger => (ledger, 0)
  | (item, volOk) :: rest, ledger =>
    let r := processQueueItem cfg now item volOk ledger
    let (ledger', count) := processItems cfg now rest r.1
    (ledger', (if r.2.1 then 1 else 0) + count)

/-- `check_download_queue`: the lazy cleanup sweep, then processing of
every queue item at the current time. -/
def checkDownloadQueue (cfg : SendCfg) (now : Nat) (items : List (QueueItem × Bool))
    (st : MonitorState) : MonitorState × Nat :=
  let st1 := cleanupOldNotifications now st
  let (ledger, count) := processItems cfg now items st1.notifiedDownloads
  ({ notifiedDownloads := ledger, lastCleanup := st1.lastCleanup }, count)

/-- Repeated polls of the same single item (no cleanup sweep between
them): fold `processQueueItem` over a list of (time, volOk) polls,
counting attempted notifications. -/
def pollMany (cfg : SendCfg) (item : QueueItem) :
    List (Nat × Bool) → Ledger → Ledger × Nat
  | [], ledger => (ledger, 0)
  | (t, volOk) :: rest, ledger =>
    let r := processQueueItem cfg t item volOk ledger
    let (ledger', count) := pollMany cfg item rest r.1
    (ledger', (if r.2.1 then 1 else 0) + count)

/-! ### Existing-library cache (`get_existing_comics`) -/

/-- Cache state: the set of known catalog ids (as a list, membership is
what matters) and the time of the last refresh (`none` before the
first refresh). -/
structure CacheState where
  existingComicsCache : List Int
  lastCacheUpdate : Option Nat

/-- Oracle for the three HTTP stages of a cache refresh: liveness probe
outcome, stats probe outcome (`none` = request failed, `some n` = the
reported volume total), and full volume-list outcome (`none` = request
failed, `some ids` = the extracted integer catalog ids). -/
structure FetchOracle where
  aboutOk : Bool
  stats : Option Nat
  volumes : Option (List Int)

/-- `get_existing_comics`: serve the cache when the last update exists,
is under one hour (60 min) old, and the cached set is non-empty;
otherwise refresh: a failed liveness probe returns the empty set, a
stats probe reporting zero volumes caches the empty set, otherwise the
full volume list is fetched and cached (a failed list fetch returns the
empty set without touching the cache).  The third component records
whether a remote fetch was performed. -/
def getExistingComics (now : Nat) (st : CacheState) (o : FetchOracle) :
    List Int × CacheState × Bool :=
  if (match st.lastCacheUpdate with
      | some t => decide (now - t < 60)
      | none => false) && !st.existingComicsCache.isEmpty then
    (st.existingComicsCache, st, false)
  else if !o.aboutOk then
    ([], st, true)
  else
    match o.stats with
    | some 0 => ([], { existingComicsCache := [], lastCacheUpdate := some now }, true)
    | _ =>
      match o.volumes with
      | some ids => (ids, { existingComicsCache := ids, lastCacheUpdate := some now }, true)
      | none => ([], st, true)

/-! ### Acquisition workflow (`_process_new_comic`, `check_and_add_new_comics`) -/

/-- The `(success, volume_id, message)` triple returned by
`kapowarr.add_comic`. -/
structure AddResult where
  success : Bool
  volumeId : Option Int
  message : String

/-- Per-run counters and detail log of the acquisition workflow. -/
structure Results where
  checked : Nat
  newFound : Nat
  addedSuccessfully : Nat
  failedToAdd : Nat
  alreadyExists : Nat
  details : List String

/-- The all-zero result record a run starts from. -/
def emptyResults : Results :=
  ⟨0, 0, 0, 0, 0, []⟩

/-- Python `set.add` on the cache list (no-op when already present). -/
def cacheAdd (cache : List Int) (n : Int) : List Int :=
  if n ∈ cache then cache else n :: cache

/-- `comic.get('name') or 'Unknown Title'` (empty string is falsy). -/
def titleOf (c : Comic) : String :=
  match c.name with
  | some s => if s == "" then "Unknown Title" else s
  | none => "Unknown Title"

/-- The duplicate test of `_process_new_comic` line 895:
"already exists" or "unique constraint" occurs in the lowercased
failure message. -/
def dupMsg (message : String) : Bool :=
  pyIn "already exists" (lowerStr message) || pyIn "unique constraint" (lowerStr message)

/-- `_process_new_comic` as a pure step over the cache and the run's
result record.  The `add_comic` HTTP call is the oracle `addComic`;
the fire-and-forget auto-search has no effect on either component and
is dropped. -/
def processNewComic (addComic : Comic → AddResult) (cache : List Int) (res : Results)
    (c : Comic) : List Int × Results :=
  let title := titleOf c
  if !(isMarvelOrDC c) then
    (cache, { res with
      failedToAdd := res.failedToAdd + 1,
      details := res.details ++
        ["❌ Skipped: " ++ title ++ " - Not Marvel/DC (" ++ extractPublisherName c ++ ")"] })
  else if (match c.id with
           | some n => n != 0 && decide (n ∈ cache)
           | none => false) then
    (cache, { res with
      alreadyExists := res.alreadyExists + 1,
      details := res.details ++ ["⚠️ Skipped: " ++ title ++ " - Already in cache"] })
  else
    let r := addComic c
    if r.success && truthyId r.volumeId then
      ((if truthyId c.id then cacheAdd cache (c.id.getD 0) else cache),
       { res with
         addedSuccessfully := res.addedSuccessfully + 1,
         details := res.details ++ ["✅ Added: " ++ title] })
    else if dupMsg r.message then
      ((if truthyId c.id then cacheAdd cache (c.id.getD 0) else cache),
       { res with
         alreadyExists := res.alreadyExists + 1,
         details := res.details ++ ["ℹ️ Exists: " ++ title ++ " - Already in library"] })
    else
      (cache, { res with
        failedToAdd := res.failedToAdd + 1,
        details := res.details ++ ["❌ Failed: " ++ title ++ " - " ++ r.message] })

/-- One acquisition run over a candidate list: the per-candidate loop
of `check_and_add_new_comics`, starting from a given cache and result
record. -/
def runWorkflow (addComic : Comic → AddResult) (comics : List Comic)
    (st : List Int × Results) : List Int × Results :=
  comics.foldl (fun st c => processNewComic addComic st.1 st.2 c) st

/-! ### Claims C2 and C5: the new-series heuristic -/

/-- C2 counterexample: the claim says every volume with
`start_year <= current_year - 4` is rejected, but the code guards the
year check with Python truthiness (`if start_year and ...`), so a
volume with `start_year = 0` — which satisfies `0 <= 2026 - 4` — is
accepted by the heuristic. -/
theorem c2_counterexample :
    (0 : Int) ≤ 2026 - 4 ∧
    isNewSeries 2026
      ⟨some 9, some "Absolute Power", none, some 0, .dict (some "DC") (some 10)⟩ = true := by
  exact ⟨by decide, by decide⟩

/-- C2 (amended): for a volume whose `start_year` is an integer `n`,
the heuristic rejects whenever `n` is nonzero and
`n ≤ current_year - 4`; and whenever `n ≥ current_year - 3` it never
rejects on the year alone (with no exclusion-term match it accepts). -/
theorem c2_amended (currentYear : Int) (c : Comic) (n : Int)
    (hy : c.startYear = some n) :
    (n ≠ 0 → n ≤ currentYear - 4 → isNewSeries currentYear c = false) ∧
    (currentYear - 3 ≤ n →
      (∀ term ∈ excludeTerms,
        pyIn term (lowerStr (c.name.getD "")) = false ∧
        pyIn term (lowerStr (c.deck.getD "")) = false) →
      isNewSeries currentYear c = true) := by
  constructor
  · intro hn hle
    have h12 : (n != 0 && decide (n < currentYear - 3)) = true := by
      simp only [Bool.and_eq_true, bne_iff_ne, ne_eq, decide_eq_true_iff]
      exact ⟨hn, by omega⟩
    unfold isNewSeries
    rw [hy]
    by_cases hA : (excludeTerms.any fun term =>
        pyIn term (lowerStr (c.name.getD "")) || pyIn term (lowerStr (c.deck.getD ""))) = true
    · simp [hA]
    · simp only [Bool.not_eq_true] at hA
      simp [hA, h12]
  · intro hge hterm
    have hany : (excludeTerms.any (fun term =>
        pyIn term (lowerStr (c.name.getD "")) || pyIn term (lowerStr (c.deck.getD "")))) = false := by
      rw [List.any_eq_false]
      intro t ht
      rcases hterm t ht with ⟨h1, h2⟩
      simp [h1, h2]
    have h2 : decide (n < currentYear - 3) = false := by
      simp only [decide_eq_false_iff_not]
      omega
    unfold isNewSeries
    rw [hy]
    simp [hany, h2]

/-- Witness for the amended C2 at concrete inputs: in year 2026 a
start year of 2020 (≤ 2022) is rejected, and a start year of 2023
(≥ 2023) with no exclusion-term match is accepted. -/
theorem c2_amended_witness :
    isNewSeries 2026 ⟨some 9, some "Batman", none, some 2020, .dict (some "DC") (some 10)⟩ = false ∧
    isNewSeries 2026 ⟨some 9, some "Batman", none, some 2023, .dict (some "DC") (some 10)⟩ = true := by
  constructor
  · exact (c2_amended 2026 _ 2020 rfl).1 (by decide) (by decide)
  · exact (c2_amended 2026 _ 2023 rfl).2 (by decide) (by decide)

/-- C5: whenever some exclusion term occurs in the lowercased name or
lowercased deck (missing/null text treated as the empty string), the
new-series heuristic rejects the volume, regardless of `start_year`,
publisher, or any other field. -/
theorem c5_exclusion_rejects (currentYear : Int) (c : Comic)
    (h : ∃ term ∈ excludeTerms,
      pyIn term (lowerStr (c.name.getD "")) = true ∨
      pyIn term (lowerStr (c.deck.getD "")) = true) :
    isNewSeries currentYear c = false := by
  obtain ⟨term, hmem, hmatch⟩ := h
  have hany : (excludeTerms.any (fun term =>
      pyIn term (lowerStr (c.name.getD "")) || pyIn term (lowerStr (c.deck.getD "")))) = true := by
    rw [List.any_eq_true]
    refine ⟨term, hmem, ?_⟩
    rcases hmatch with h | h <;> simp [h]
  unfold isNewSeries
  simp [hany]

/-- Witness for C5: a 2026 Marvel volume named "X-Men Omnibus" is
rejected because "omnibus" is an exclusion term. -/
theorem c5_exclusion_rejects_witness :
    isNewSeries 2026
      ⟨some 5, some "X-Men Omnibus", none, some 2026, .dict (some "Marvel") (some 31)⟩ = false := by
  exact c5_exclusion_rejects 2026 _ ⟨"omnibus", by decide, Or.inl (by decide)⟩

/-! ### Claim C9: the cached-return path needs a non-empty cache -/

/-- C9: when the cached set is empty, `get_existing_comics` always
performs a fresh fetch, even if the cache was updated under one hour
ago; and conversely the cached-return path (no fetch, cached set
returned) fires exactly when the last update is under one hour old and
the cached set is non-empty. -/
theorem c9_empty_cache_refetch (now : Nat) (st : CacheState) (o : FetchOracle) :
    (st.existingComicsCache = [] → (getExistingComics now st o).2.2 = true) ∧
    (∀ t, st.lastCacheUpdate = some t → now - t < 60 → st.existingComicsCache ≠ [] →
      (getExistingComics now st o).2.2 = false ∧
      (getExistingComics now st o).1 = st.existingComicsCache) := by
  constructor
  · intro hc
    unfold getExistingComics
    rw [hc]
    simp only [List.isEmpty_nil, Bool.not_true, Bool.and_false, Bool.false_eq_true,
      if_false]
    split
    · rfl
    · split
      · rfl
      · split <;> rfl
  · intro t ht hfresh hne
    unfold getExistingComics
    rw [ht]
    have h1 : decide (now - t < 60) = true := by simpa using hfresh
    have h2 : st.existingComicsCache.isEmpty = false := by
      simpa [List.isEmpty_iff] using hne
    simp [h1, h2]

/-- Witness for C9: with a refresh 10 minutes ago, an empty cached set
still triggers a fetch, while a non-empty one is served from cache. -/
theorem c9_empty_cache_refetch_witness :
    (getExistingComics 10 ⟨[], some 0⟩ ⟨true, some 3, some [5]⟩).2.2 = true ∧
    (getExistingComics 10 ⟨[7], some 0⟩ ⟨true, some 3, some [5]⟩).2.2 = false := by
  constructor
  · exact (c9_empty_cache_refetch 10 ⟨[], some 0⟩ ⟨true, some 3, some [5]⟩).1 rfl
  · exact ((c9_empty_cache_refetch 10 ⟨[7], some 0⟩ ⟨true, some 3, some [5]⟩).2 0 rfl
      (by decide) (by decide)).1

/-! ### Claims C1, C7, C10: the notification dedup ledger -/

/-- Dict lookup after dict assignment of the same key. -/
theorem ledgerGet_set (key : String) (t : Nat) (l : Ledger) :
    ledgerGet key (ledgerSet key t l) = some t := by
  simp [ledgerSet, ledgerGet]

/-- A queue item whose key is recorded is suppressed (no send attempt,
ledger unchanged) whenever the active-with-positive-progress condition
fails or the poll is under 30 minutes after the recorded timestamp. -/
theorem processQueueItem_suppressed (cfg : SendCfg) (t : Nat) (item : QueueItem)
    (volOk : Bool) (ledger : Ledger) (ts : Nat)
    (hkey : ledgerGet (itemKey item) ledger = some ts)
    (hsup : (((lowerStr item.status == "downloading") || (lowerStr item.status == "queued")) &&
        decide (0 < item.progress)) = false ∨ t - ts < 30) :
    processQueueItem cfg t item volOk ledger = (ledger, false, false) := by
  unfold processQueueItem
  by_cases hids : (!(truthyId item.volumeId) || !(truthyId item.downloadId)) = true
  · simp [hids]
  · simp only [Bool.or_eq_true, Bool.not_eq_true', Bool.not_eq_true] at hids
    have hkey' : ledgerGet (notificationKey (item.downloadId.getD 0) (lowerStr item.status))
        ledger = some ts := hkey
    rcases hsup with hb | hw
    · simp [hids, hkey', hb]
    · have hw' : decide (t - ts < 30) = true := by simpa using hw
      by_cases hb : (((lowerStr item.status == "downloading") ||
          (lowerStr item.status == "queued")) && decide (0 < item.progress)) = true
      · simp [hids, hkey', hb, hw']
      · simp only [Bool.not_eq_true] at hb
        simp [hids, hkey', hb]

/-- A queue item whose key is recorded and whose lowercased status is
outside the active set {downloading, queued} is suppressed
unconditionally: no send attempt, ledger unchanged. -/
theorem processQueueItem_terminal_noop (cfg : SendCfg) (t : Nat) (item : QueueItem)
    (volOk : Bool) (ledger : Ledger) (ts : Nat)
    (hkey : ledgerGet (itemKey item) ledger = some ts)
    (hterm : lowerStr item.status ≠ "downloading" ∧ lowerStr item.status ≠ "queued") :
    processQueueItem cfg t item volOk ledger = (ledger, false, false) := by
  unfold processQueueItem
  by_cases hids : (!(truthyId item.volumeId) || !(truthyId item.downloadId)) = true
  · simp [hids]
  · simp only [Bool.or_eq_true, Bool.not_eq_true', Bool.not_eq_true] at hids
    have hkey' : ledgerGet (notificationKey (item.downloadId.getD 0) (lowerStr item.status))
        ledger = some ts := hkey
    have hb : ((lowerStr item.status == "downloading") || (lowerStr item.status == "queued"))
        = false := by
      simp [hterm.1, hterm.2]
    simp [hids, hkey', hb]

/-- C1 (amended): once a notification has been recorded for the
composite key of a queue item with a terminal (non-active) status, no
further notification for that key is emitted by any number of
subsequent polls, for as long as the ledger entry persists — i.e. as
long as no garbage-collection sweep (which purges entries older than
48 hours once 24 hours have passed since the previous sweep) removes
the entry; the original claim's "no matter how much wall-clock time
passes (including past the ledger's garbage-collection horizon)" does
not hold, see the counterexample. -/
theorem c1_amended (cfg : SendCfg) (item : QueueItem) (polls : List (Nat × Bool))
    (ledger : Ledger) (ts : Nat)
    (hkey : ledgerGet (itemKey item) ledger = some ts)
    (hterm : lowerStr item.status ≠ "downloading" ∧ lowerStr item.status ≠ "queued") :
    pollMany cfg item polls ledger = (ledger, 0) := by
  induction polls with
  | nil => rfl
  | cons p rest ih =>
    obtain ⟨t, volOk⟩ := p
    simp [pollMany, processQueueItem_terminal_noop cfg t item volOk ledger ts hkey hterm, ih]

/-- Witness for the amended C1: a completed download recorded at time
0 is polled three more times (minutes 10, 100, 2000) and never
re-notified, the ledger unchanged. -/
theorem c1_amended_witness :
    pollMany ⟨true, true, false⟩ ⟨some 1, some 7, "Completed", 0⟩
      [(10, true), (100, true), (2000, true)]
      [(itemKey ⟨some 1, some 7, "Completed", 0⟩, 0)] =
      ([(itemKey ⟨some 1, some 7, "Completed", 0⟩, 0)], 0) := by
  exact c1_amended ⟨true, true, false⟩ ⟨some 1, some 7, "Completed", 0⟩ _ _ 0
    (by decide) (by decide)

/-- C1 counterexample: the claim as stated extends past the ledger's
garbage-collection horizon, but the code re-notifies there.  A
completed item is notified at minute 0 (count 1); polled again at
minute 3000 (50 hours later) the lazy sweep purges the 48-hour-old
entry and the very same (id, status) pair is notified a second time
(count 1 again instead of the claimed 0). -/
theorem c1_counterexample :
    (checkDownloadQueue ⟨true, true, false⟩ 0
      [(⟨some 1, some 7, "Completed", 0⟩, true)] ⟨[], 0⟩).2 = 1 ∧
    (checkDownloadQueue ⟨true, true, false⟩ 3000
      [(⟨some 1, some 7, "Completed", 0⟩, true)]
      (checkDownloadQueue ⟨true, true, false⟩ 0
        [(⟨some 1, some 7, "Completed", 0⟩, true)] ⟨[], 0⟩).1).2 = 1 := by
  exact ⟨by decide, by decide⟩

/-- C7: for a recorded key with active status (downloading/queued) and
positive progress, a poll strictly under 30 minutes after the recorded
timestamp is suppressed (no send attempt, ledger unchanged), while a
poll at 30 minutes or later with retrievable volume details takes the
notification path and refreshes the recorded timestamp. -/
theorem c7_renotify_window (cfg : SendCfg) (now lastNotification : Nat) (item : QueueItem)
    (ledger : Ledger)
    (hvol : truthyId item.volumeId = true) (hdl : truthyId item.downloadId = true)
    (hstatus : lowerStr item.status = "downloading" ∨ lowerStr item.status = "queued")
    (hprog : 0 < item.progress)
    (hkey : ledgerGet (itemKey item) ledger = some lastNotification) :
    (now - lastNotification < 30 →
      ∀ volOk, processQueueItem cfg now item volOk ledger = (ledger, false, false)) ∧
    (30 ≤ now - lastNotification →
      processQueueItem cfg now item true ledger =
        (ledgerSet (itemKey item) now ledger, true, sendDownloadNotification cfg)) := by
  have hkey' : ledgerGet (notificationKey (item.downloadId.getD 0) (lowerStr item.status))
      ledger = some lastNotification := hkey
  have hb : ((lowerStr item.status == "downloading") || (lowerStr item.status == "queued"))
      = true := by
    rcases hstatus with h | h <;> simp [h]
  have hcontains : notifyStatuses.contains (lowerStr item.status) = true := by
    rcases hstatus with h | h <;> rw [h] <;> decide
  constructor
  · intro hlt volOk
    unfold processQueueItem
    simp [hvol, hdl, hkey', hb, hprog, hlt]
  · intro hge
    have hlt : decide (now - lastNotification < 30) = false := by
      simp only [decide_eq_false_iff_not]
      omega
    have hmem : lowerStr item.status ∈ notifyStatuses := by simpa using hcontains
    unfold processQueueItem
    simp [hvol, hdl, hkey', hb, hprog, hlt, hmem]
    rfl

/-- Witness for C7: a downloading item at progress 40, recorded at
minute 0, is suppressed at minute 10 and re-notified at minute 31
with the timestamp refreshed. -/
theorem c7_renotify_window_witness :
    processQueueItem ⟨true, true, false⟩ 10 ⟨some 1, some 7, "Downloading", 40⟩ true
      [(itemKey ⟨some 1, some 7, "Downloading", 40⟩, 0)] =
      ([(itemKey ⟨some 1, some 7, "Downloading", 40⟩, 0)], false, false) ∧
    processQueueItem ⟨true, true, false⟩ 31 ⟨some 1, some 7, "Downloading", 40⟩ true
      [(itemKey ⟨some 1, some 7, "Downloading", 40⟩, 0)] =
      (ledgerSet (itemKey ⟨some 1, some 7, "Downloading", 40⟩) 31
        [(itemKey ⟨some 1, some 7, "Downloading", 40⟩, 0)], true, true) := by
  constructor
  · exact (c7_renotify_window ⟨true, true, false⟩ 10 0 _ _ (by decide) (by decide)
      (Or.inl (by decide)) (by decide) (by decide)).1 (by decide) true
  · exact (c7_renotify_window ⟨true, true, false⟩ 31 0 _ _ (by decide) (by decide)
      (Or.inl (by decide)) (by decide) (by decide)).2 (by decide)

/-- C10: for a queue item with an absent ledger key, a notifying
status and a successful volume-details fetch, the key is recorded with
the current time for every send configuration — in particular when
notifications are disabled (nothing is delivered) — and afterwards any
poll of the same item that is within the 30-minute window or whose
status is not active-with-positive-progress makes no further send
attempt: the failed or suppressed send is not retried. -/
theorem c10_record_despite_send_failure (cfg : SendCfg) (now : Nat) (item : QueueItem)
    (ledger : Ledger)
    (hvol : truthyId item.volumeId = true) (hdl : truthyId item.downloadId = true)
    (habsent : ledgerGet (itemKey item) ledger = none)
    (hnotify : notifyStatuses.contains (lowerStr item.status) = true) :
    (processQueueItem cfg now item true ledger).1 = ledgerSet (itemKey item) now ledger ∧
    (processQueueItem cfg now item true ledger).2.1 = true ∧
    (cfg.enabled = false → (processQueueItem cfg now item true ledger).2.2 = false) ∧
    (∀ cfg₂ t volOk₂,
      (¬((lowerStr item.status = "downloading" ∨ lowerStr item.status = "queued") ∧
          0 < item.progress) ∨ t - now < 30) →
      processQueueItem cfg₂ t item volOk₂ (ledgerSet (itemKey item) now ledger) =
        (ledgerSet (itemKey item) now ledger, false, false)) := by
  have habsent' : ledgerGet (notificationKey (item.downloadId.getD 0) (lowerStr item.status))
      ledger = none := habsent
  have hmem : lowerStr item.status ∈ notifyStatuses := by simpa using hnotify
  have hmain : processQueueItem cfg now item true ledger =
      (ledgerSet (itemKey item) now ledger, true, sendDownloadNotification cfg) := by
    unfold processQueueItem
    simp [hvol, hdl, habsent', hmem]
    rfl
  refine ⟨by rw [hmain], by rw [hmain], ?_, ?_⟩
  · intro hdis
    rw [hmain]
    simp [sendDownloadNotification, hdis]
  · intro cfg₂ t volOk₂ hsup
    have hkey2 : ledgerGet (itemKey item) (ledgerSet (itemKey item) now ledger) = some now :=
      ledgerGet_set _ now ledger
    apply processQueueItem_suppressed cfg₂ t item volOk₂ _ now hkey2
    rcases hsup with hterm | hwin
    · left
      by_cases hp : 0 < item.progress
      · have h2 : ¬(lowerStr item.status = "downloading" ∨ lowerStr item.status = "queued") :=
          fun h => hterm ⟨h, hp⟩
        push_neg at h2
        simp [h2.1, h2.2]
      · simp [hp]
    · right
      exact hwin

/-- Witness for C10: a completed item with absent key, retrievable
volume details and notifications disabled gets its key recorded at
minute 5, nothing is delivered, and a later poll at minute 500 makes
no attempt. -/
theorem c10_record_despite_send_failure_witness :
    (processQueueItem ⟨false, true, false⟩ 5 ⟨some 1, some 7, "Completed", 0⟩ true []).1 =
      ledgerSet (itemKey ⟨some 1, some 7, "Completed", 0⟩) 5 [] ∧
    (processQueueItem ⟨false, true, false⟩ 5 ⟨some 1, some 7, "Completed", 0⟩ true []).2.2 = false ∧
    processQueueItem ⟨true, true, false⟩ 500 ⟨some 1, some 7, "Completed", 0⟩ true
      (ledgerSet (itemKey ⟨some 1, some 7, "Completed", 0⟩) 5 []) =
      (ledgerSet (itemKey ⟨some 1, some 7, "Completed", 0⟩) 5 [], false, false) := by
  refine ⟨?_, ?_, ?_⟩
  · exact (c10_record_despite_send_failure ⟨false, true, false⟩ 5 _ []
      (by decide) (by decide) (by decide) (by decide)).1
  · exact (c10_record_despite_send_failure ⟨false, true, false⟩ 5 _ []
      (by decide) (by decide) (by decide) (by decide)).2.2.1 rfl
  · exact (c10_record_despite_send_failure ⟨false, true, false⟩ 5 _ []
      (by decide) (by decide) (by decide) (by decide)).2.2.2 ⟨true, true, false⟩ 500 true
      (Or.inl (by decide))

/-! ### Claims C4 and C6: merge and dedup of the discovery pipeline -/

/-- Every comic kept by the per-publisher post-filter for one of the
three monitored publisher ids passes the Marvel/DC allow-list check. -/
theorem keepPub_isMarvelOrDC (publisherName : String) (publisherId : Int) (c : Comic)
    (hid : publisherId = 31 ∨ publisherId = 10 ∨ publisherId = 16)
    (h : keepPub publisherName publisherId c = true) : isMarvelOrDC c = true := by
  rw [keepPub, Bool.or_eq_true] at h
  rcases h with h | h
  · unfold isMarvelOrDC
    cases hpub : c.publisher with
    | dict name pid =>
      rw [hpub] at h
      have hpid : pid = some publisherId := by simpa using h
      subst hpid
      rcases hid with h' | h' | h' <;> subst h' <;> simp
    | str s =>
      rw [hpub] at h
      simp at h
    | other =>
      rw [hpub] at h
      simp at h
  · exact ((Bool.and_eq_true _ _).mp h).1

/-- Every comic in the concatenated per-publisher results passes the
Marvel/DC allow-list check. -/
theorem mem_primaryOf_isMarvelOrDC (currentYear : Int) (rawMarvel rawDC rawDarkHorse : List Comic)
    (c : Comic) (h : c ∈ primaryOf currentYear rawMarvel rawDC rawDarkHorse) :
    isMarvelOrDC c = true := by
  unfold primaryOf processPubRaw at h
  rcases List.mem_append.mp h with h | h
  · rcases List.mem_append.mp h with h | h
    · exact keepPub_isMarvelOrDC _ 31 c (Or.inl rfl)
        (List.mem_filter.mp (List.mem_filter.mp h).1).2
    · exact keepPub_isMarvelOrDC _ 10 c (Or.inr (Or.inl rfl))
        (List.mem_filter.mp (List.mem_filter.mp h).1).2
  · exact keepPub_isMarvelOrDC _ 16 c (Or.inr (Or.inr rfl))
      (List.mem_filter.mp (List.mem_filter.mp h).1).2

/-- Every comic in the merged candidate list (per-publisher results
plus fallback results) passes the Marvel/DC allow-list check. -/
theorem mem_mergedOf_isMarvelOrDC (currentYear : Int)
    (rawMarvel rawDC rawDarkHorse rawFallback : List Comic) (c : Comic)
    (h : c ∈ mergedOf currentYear rawMarvel rawDC rawDarkHorse rawFallback) :
    isMarvelOrDC c = true := by
  unfold mergedOf at h
  split at h
  · rcases List.mem_append.mp h with h | h
    · exact mem_primaryOf_isMarvelOrDC currentYear _ _ _ c h
    · have h1 : c ∈ processFallbackRaw currentYear rawFallback := (List.mem_filter.mp h).1
      unfold processFallbackRaw at h1
      exact (List.mem_filter.mp (List.mem_filter.mp h1).1).2
  · exact mem_primaryOf_isMarvelOrDC currentYear _ _ _ c h

/-- On a list whose members all pass the Marvel/DC check, the final
dedup loop coincides with the spec's first-occurrence dedup. -/
theorem finalDedupGo_eq_specDedupGo (l : List Comic)
    (hall : ∀ c ∈ l, isMarvelOrDC c = true) :
    ∀ seen, finalDedupGo seen l = specDedupGo seen l := by
  induction l with
  | nil => intro seen; rfl
  | cons c cs ih =>
    intro seen
    have hc := hall c (List.mem_cons_self c cs)
    have hcs : ∀ d ∈ cs, isMarvelOrDC d = true :=
      fun d hd => hall d (List.mem_cons_of_mem c hd)
    cases hid : c.id with
    | none => simp [finalDedupGo, specDedupGo, hid, ih hcs]
    | some n =>
      by_cases hcond : n ≠ 0 ∧ n ∉ seen
      · obtain ⟨h1, h2⟩ := hcond
        simp [finalDedupGo, specDedupGo, hid, h1, h2, hc, ih hcs]
      · simp [finalDedupGo, specDedupGo, hid, hcond, ih hcs]

/-- The ids of the spec dedup's output are pairwise distinct and
disjoint from the already-seen accumulator. -/
theorem specDedupGo_ids_nodup (l : List Comic) : ∀ seen : List Int,
    (resultIds (specDedupGo seen l)).Nodup ∧
    ∀ n ∈ resultIds (specDedupGo seen l), n ∉ seen := by
  induction l with
  | nil =>
    intro seen
    exact ⟨List.nodup_nil, by intro n hn; simp [specDedupGo, resultIds] at hn⟩
  | cons c cs ih =>
    intro seen
    cases hid : c.id with
    | none =>
      have hstep : specDedupGo seen (c :: cs) = specDedupGo seen cs := by
        simp [specDedupGo, hid]
      rw [hstep]
      exact ih seen
    | some n =>
      by_cases hcond : n ≠ 0 ∧ n ∉ seen
      · obtain ⟨hn0, hnseen⟩ := hcond
        have hstep : specDedupGo seen (c :: cs) = c :: specDedupGo (n :: seen) cs := by
          simp [specDedupGo, hid, hn0, hnseen]
        have hids2 : resultIds (specDedupGo seen (c :: cs)) =
            n :: resultIds (specDedupGo (n :: seen) cs) := by
          rw [hstep]
          simp [resultIds, List.filterMap_cons, hid]
        obtain ⟨hnd, hnotin⟩ := ih (n :: seen)
        constructor
        · rw [hids2]
          refine List.nodup_cons.mpr ⟨?_, hnd⟩
          intro hnmem
          exact (hnotin n hnmem) (List.mem_cons_self n seen)
        · intro m hm
          rw [hids2] at hm
          rcases List.mem_cons.mp hm with rfl | hm
          · exact hnseen
          · exact fun hms => (hnotin m hm) (List.mem_cons_of_mem n hms)
      · have hstep : specDedupGo seen (c :: cs) = specDedupGo seen cs := by
          simp [specDedupGo, hid, hcond]
        rw [hstep]
        exact ih seen

/-- C4: the list returned by `search_new_releases` is exactly the
spec's first-occurrence dedup of the merged candidate list (so its
order is the first-seen order of identifiers and the first occurrence
of each identifier is the one kept), and its catalog identifiers are
pairwise distinct. -/
theorem c4_dedup_first_seen (currentYear : Int)
    (rawMarvel rawDC rawDarkHorse rawFallback : List Comic) :
    searchNewReleases currentYear rawMarvel rawDC rawDarkHorse rawFallback =
      specDedup (mergedOf currentYear rawMarvel rawDC rawDarkHorse rawFallback) ∧
    (resultIds (searchNewReleases currentYear rawMarvel rawDC rawDarkHorse rawFallback)).Nodup := by
  have heq : searchNewReleases currentYear rawMarvel rawDC rawDarkHorse rawFallback =
      specDedup (mergedOf currentYear rawMarvel rawDC rawDarkHorse rawFallback) :=
    finalDedupGo_eq_specDedupGo _
      (fun c h => mem_mergedOf_isMarvelOrDC currentYear _ _ _ _ c h) []
  refine ⟨heq, ?_⟩
  rw [heq]
  exact (specDedupGo_ids_nodup _ []).1

/-- C6: the fallback merge of `search_new_releases` — with at least 5
per-publisher results the fallback contributes nothing (the merged
list equals the primary list whatever the fallback query returns);
with fewer than 5, the merged list consists of the primary results
plus exactly those processed fallback results whose catalog identifier
is not already present among the primary results. -/
theorem c6_fallback_merge (currentYear : Int)
    (rawMarvel rawDC rawDarkHorse rawFallback : List Comic) :
    (5 ≤ (primaryOf currentYear rawMarvel rawDC rawDarkHorse).length →
      mergedOf currentYear rawMarvel rawDC rawDarkHorse rawFallback =
        primaryOf currentYear rawMarvel rawDC rawDarkHorse) ∧
    ((primaryOf currentYear rawMarvel rawDC rawDarkHorse).length < 5 →
      ∀ c, c ∈ mergedOf currentYear rawMarvel rawDC rawDarkHorse rawFallback ↔
        (c ∈ primaryOf currentYear rawMarvel rawDC rawDarkHorse ∨
         (c ∈ processFallbackRaw currentYear rawFallback ∧
          c.id ∉ (primaryOf currentYear rawMarvel rawDC rawDarkHorse).map Comic.id))) := by
  constructor
  · intro h
    unfold mergedOf
    rw [if_neg (by omega)]
  · intro h c
    unfold mergedOf
    rw [if_pos h]
    simp [List.mem_append, List.mem_filter, decide_eq_true_iff]

/-- A concrete candidate that survives every filter of the pipeline. -/
def sampleMarvelComic : Comic :=
  ⟨some 5, some "Ultimate Spider-Man", none, some 2026, .dict (some "Marvel Comics") (some 31)⟩

/-- Witness for C6: five primary results make the fallback list
irrelevant, while an empty primary list merges a fallback result with
a fresh identifier. -/
theorem c6_fallback_merge_witness :
    mergedOf 2026 (List.replicate 5 sampleMarvelComic) [] [] [sampleMarvelComic] =
      primaryOf 2026 (List.replicate 5 sampleMarvelComic) [] [] ∧
    sampleMarvelComic ∈ mergedOf 2026 [] [] [] [sampleMarvelComic] := by
  constructor
  · exact (c6_fallback_merge 2026 (List.replicate 5 sampleMarvelComic) [] []
      [sampleMarvelComic]).1 (by decide)
  · exact (((c6_fallback_merge 2026 [] [] [] [sampleMarvelComic]).2 (by decide))
      sampleMarvelComic).mpr (Or.inr ⟨by decide, by decide⟩)

/-! ### Claims C3 and C8: the acquisition workflow -/

/-- Membership survives a `set.add`. -/
theorem mem_cacheAdd (cache : List Int) (m n : Int) (h : n ∈ cache) : n ∈ cacheAdd cache m := by
  unfold cacheAdd
  split
  · exact h
  · exact List.mem_cons_of_mem m h

/-- The added element is a member after a `set.add`. -/
theorem mem_cacheAdd_self (cache : List Int) (m : Int) : m ∈ cacheAdd cache m := by
  unfold cacheAdd
  split
  · assumption
  · exact List.mem_cons_self m cache

/-- One acquisition step never removes anything from the cache. -/
theorem processNewComic_cache_mono (a : Comic → AddResult) (cache : List Int) (res : Results)
    (c : Comic) (n : Int) (h : n ∈ cache) : n ∈ (processNewComic a cache res c).1 := by
  unfold processNewComic
  dsimp only
  repeat' split
  all_goals first
    | exact h
    | exact mem_cacheAdd cache _ n h

/-- A whole acquisition run never removes anything from the cache. -/
theorem runWorkflow_cache_mono (a : Comic → AddResult) (comics : List Comic) :
    ∀ (st : List Int × Results) (n : Int), n ∈ st.1 → n ∈ (runWorkflow a comics st).1 := by
  induction comics with
  | nil => intro st n h; exact h
  | cons c cs ih =>
    intro st n h
    obtain ⟨cache, res⟩ := st
    exact ih (processNewComic a cache res c) n (processNewComic_cache_mono a cache res c n h)

/-- After one acquisition step on a Marvel/DC candidate with a truthy
id whose add either succeeded or failed as a duplicate, the candidate's
id is in the cache. -/
theorem processNewComic_mem_cache (a : Comic → AddResult) (cache : List Int) (res : Results)
    (c : Comic) (n : Int)
    (hid : c.id = some n) (hn : n ≠ 0) (hpub : isMarvelOrDC c = true)
    (hok : ((a c).success && truthyId (a c).volumeId) = true ∨ dupMsg (a c).message = true) :
    n ∈ (processNewComic a cache res c).1 := by
  have htr : truthyId c.id = true := by
    rw [hid]
    simpa [truthyId] using hn
  have hgetD : c.id.getD 0 = n := by rw [hid]; rfl
  unfold processNewComic
  rw [hpub]
  simp only [Bool.not_true, Bool.false_eq_true, if_false]
  by_cases hc : n ∈ cache
  · have hcond : (match c.id with
        | some m => m != 0 && decide (m ∈ cache)
        | none => false) = true := by
      rw [hid]
      simp [hn, hc]
    simp only [hcond, if_true]
    exact hc
  · have hcond : (match c.id with
        | some m => m != 0 && decide (m ∈ cache)
        | none => false) = false := by
      rw [hid]
      simp [hc]
    simp only [hcond, Bool.false_eq_true, if_false]
    by_cases hadd : ((a c).success && truthyId (a c).volumeId) = true
    · simp only [hadd, if_true, htr, hgetD]
      exact mem_cacheAdd_self cache n
    · rcases hok with hok | hdup
      · exact absurd hok hadd
      · simp only [Bool.not_eq_true] at hadd
        simp only [hadd, Bool.false_eq_true, if_false, hdup, if_true, htr, hgetD]
        exact mem_cacheAdd_self cache n

/-- After a whole acquisition run, every Marvel/DC candidate of the
list with a truthy id whose add succeeded or failed as a duplicate has
its id in the cache. -/
theorem runWorkflow_mem_cache (a : Comic → AddResult) (comics : List Comic) :
    ∀ (st : List Int × Results) (c : Comic) (n : Int), c ∈ comics →
    c.id = some n → n ≠ 0 → isMarvelOrDC c = true →
    (((a c).success && truthyId (a c).volumeId) = true ∨ dupMsg (a c).message = true) →
    n ∈ (runWorkflow a comics st).1 := by
  induction comics with
  | nil =>
    intro st c n h
    cases h
  | cons d ds ih =>
    intro st c n hmem hid hn hpub hok
    obtain ⟨cache, res⟩ := st
    rcases List.mem_cons.mp hmem with rfl | hmem
    · exact runWorkflow_cache_mono a ds _ n
        (processNewComic_mem_cache a cache res c n hid hn hpub hok)
    · exact ih _ c n hmem hid hn hpub hok

/-- One acquisition step either leaves the added-counter unchanged, or
increments it — and in the latter case the candidate passed the
Marvel/DC check, its add call succeeded with a truthy volume id, and
its truthy catalog id was not in the cache. -/
theorem processNewComic_added (a : Comic → AddResult) (cache : List Int) (res : Results)
    (c : Comic) :
    (processNewComic a cache res c).2.addedSuccessfully = res.addedSuccessfully ∨
    ((processNewComic a cache res c).2.addedSuccessfully = res.addedSuccessfully + 1 ∧
      isMarvelOrDC c = true ∧ ((a c).success && truthyId (a c).volumeId) = true ∧
      ∀ n, c.id = some n → n ≠ 0 → n ∉ cache) := by
  unfold processNewComic
  dsimp only
  by_cases hmarvel : (!isMarvelOrDC c) = true
  · rw [if_pos hmarvel]
    left
    rfl
  · rw [if_neg hmarvel]
    by_cases hhit : (match c.id with
        | some m => m != 0 && decide (m ∈ cache)
        | none => false) = true
    · rw [if_pos hhit]
      left
      rfl
    · rw [if_neg hhit]
      by_cases hadd : ((a c).success && truthyId (a c).volumeId) = true
      · rw [if_pos hadd]
        right
        refine ⟨rfl, ?_, hadd, ?_⟩
        · simpa using hmarvel
        · intro n hid hn hmem
          apply hhit
          rw [hid]
          simp [hn, hmem]
      · rw [if_neg hadd]
        by_cases hdup : dupMsg (a c).message = true
        · rw [if_pos hdup]
          left
          rfl
        · rw [if_neg hdup]
          left
          rfl

/-- If every candidate of the list with a successful add is already
covered by the cache, a run increments the added-counter by nothing. -/
theorem runWorkflow_added_stable (a : Comic → AddResult) (comics : List Comic) :
    ∀ (cache : List Int) (res : Results),
    (∀ c ∈ comics, ∀ n, c.id = some n → n ≠ 0 → isMarvelOrDC c = true →
      ((a c).success && truthyId (a c).volumeId) = true → n ∈ cache) →
    (∀ c ∈ comics, truthyId c.id = true) →
    (runWorkflow a comics (cache, res)).2.addedSuccessfully = res.addedSuccessfully := by
  induction comics with
  | nil =>
    intro cache res h1 h2
    rfl
  | cons c cs ih =>
    intro cache res hcov hids
    obtain ⟨n, hid, hn⟩ : ∃ n, c.id = some n ∧ n ≠ 0 := by
      have h := hids c (List.mem_cons_self c cs)
      cases hcid : c.id with
      | none => rw [hcid] at h; simp [truthyId] at h
      | some m =>
        refine ⟨m, rfl, ?_⟩
        rw [hcid] at h
        simpa [truthyId] using h
    have hstep := processNewComic_added a cache res c
    rcases hstep with hstep | ⟨_, hpub, hsucc, hnotin⟩
    · have hcov' : ∀ d ∈ cs, ∀ m, d.id = some m → m ≠ 0 → isMarvelOrDC d = true →
          ((a d).success && truthyId (a d).volumeId) = true →
          m ∈ (processNewComic a cache res c).1 :=
        fun d hd m h1 h2 h3 h4 =>
          processNewComic_cache_mono a cache res c m
            (hcov d (List.mem_cons_of_mem c hd) m h1 h2 h3 h4)
      have hids' : ∀ d ∈ cs, truthyId d.id = true :=
        fun d hd => hids d (List.mem_cons_of_mem c hd)
      have hrun : runWorkflow a (c :: cs) (cache, res) =
          runWorkflow a cs (processNewComic a cache res c) := rfl
      rw [hrun, ← Prod.mk.eta (p := processNewComic a cache res c)]
      rw [ih (processNewComic a cache res c).1 (processNewComic a cache res c).2
        hcov' hids']
      exact hstep
    · exact absurd (hcov c (List.mem_cons_self c cs) n hid hn hpub hsucc) (hnotin n hid hn)

/-- C3: running the acquisition workflow a second time over the same
candidate list (all candidates carrying a truthy catalog id, as every
list produced by the discovery pipeline does), with the cache carried
over and not invalidated, adds nothing: the second run's
`added_successfully` is 0, because the first run left the id of every
successfully added candidate in the existing-comics cache. -/
theorem c3_idempotent (addComic : Comic → AddResult) (comics : List Comic)
    (cache : List Int)
    (hids : ∀ c ∈ comics, truthyId c.id = true) :
    (runWorkflow addComic comics
      ((runWorkflow addComic comics (cache, emptyResults)).1,
        emptyResults)).2.addedSuccessfully = 0 ∧
    (∀ c ∈ comics, ∀ n, c.id = some n → n ≠ 0 → isMarvelOrDC c = true →
      ((addComic c).success && truthyId (addComic c).volumeId) = true →
      n ∈ (runWorkflow addComic comics (cache, emptyResults)).1) := by
  have hmem : ∀ c ∈ comics, ∀ n, c.id = some n → n ≠ 0 → isMarvelOrDC c = true →
      ((addComic c).success && truthyId (addComic c).volumeId) = true →
      n ∈ (runWorkflow addComic comics (cache, emptyResults)).1 :=
    fun c hc n hid hn hpub hsucc =>
      runWorkflow_mem_cache addComic comics (cache, emptyResults) c n hc hid hn hpub
        (Or.inl hsucc)
  exact ⟨runWorkflow_added_stable addComic comics _ emptyResults hmem hids, hmem⟩

/-- Every comic kept by the final dedup loop carries a truthy catalog
id, so every candidate list the discovery pipeline hands to the
acquisition workflow satisfies the hypothesis of the idempotence
theorem. -/
theorem mem_finalDedupGo_truthyId (l : List Comic) :
    ∀ (seen : List Int) (c : Comic), c ∈ finalDedupGo seen l → truthyId c.id = true := by
  induction l with
  | nil =>
    intro seen c h
    simp [finalDedupGo] at h
  | cons d ds ih =>
    intro seen c h
    cases hid : d.id with
    | none =>
      rw [finalDedupGo, hid] at h
      exact ih seen c h
    | some n =>
      rw [finalDedupGo, hid] at h
      dsimp only at h
      by_cases hcond : (n != 0 && !(seen.contains n)) = true
      · rw [if_pos hcond] at h
        by_cases hdc : isMarvelOrDC d = true
        · rw [if_pos hdc] at h
          rcases List.mem_cons.mp h with rfl | h
          · rw [hid]
            simpa [truthyId] using ((Bool.and_eq_true _ _).mp hcond).1
          · exact ih _ c h
        · rw [if_neg hdc] at h
          exact ih seen c h
      · rw [if_neg hcond] at h
        exact ih seen c h

/-- Every comic returned by `search_new_releases` carries a truthy
catalog id. -/
theorem searchNewReleases_truthyId (currentYear : Int)
    (rawMarvel rawDC rawDarkHorse rawFallback : List Comic) (c : Comic)
    (h : c ∈ searchNewReleases currentYear rawMarvel rawDC rawDarkHorse rawFallback) :
    truthyId c.id = true :=
  mem_finalDedupGo_truthyId _ [] c h

/-- A library add oracle that always succeeds with a fresh volume id. -/
def addOkOracle : Comic → AddResult :=
  fun _ => ⟨true, some 100, "Successfully added"⟩

/-- Witness for C3: one candidate, an always-succeeding add; the first
run adds it, the second run (same cache, fresh counters) adds 0. -/
theorem c3_idempotent_witness :
    (runWorkflow addOkOracle [sampleMarvelComic]
      ((runWorkflow addOkOracle [sampleMarvelComic] ([], emptyResults)).1,
        emptyResults)).2.addedSuccessfully = 0 := by
  exact (c3_idempotent addOkOracle [sampleMarvelComic] [] (by decide)).1

/-- C8: an add failure whose message indicates a uniqueness/duplicate
constraint (the code's test: lowercased message contains "already
exists" or "unique constraint") increments `already_exists`, leaves
`failed_to_add` unchanged and still inserts the candidate's catalog id
into the cache; any other failure increments `failed_to_add`, leaves
`already_exists` and the cache unchanged and records the literal error
text in the per-item details. -/
theorem c8_duplicate_policy (addComic : Comic → AddResult) (c : Comic) (n : Int)
    (cache : List Int) (res : Results)
    (hpub : isMarvelOrDC c = true)
    (hid : c.id = some n) (hn : n ≠ 0) (hcache : n ∉ cache)
    (hfail : ((addComic c).success && truthyId (addComic c).volumeId) = false) :
    (dupMsg (addComic c).message = true →
      (processNewComic addComic cache res c).2.alreadyExists = res.alreadyExists + 1 ∧
      (processNewComic addComic cache res c).2.failedToAdd = res.failedToAdd ∧
      n ∈ (processNewComic addComic cache res c).1) ∧
    (dupMsg (addComic c).message = false →
      (processNewComic addComic cache res c).2.failedToAdd = res.failedToAdd + 1 ∧
      (processNewComic addComic cache res c).2.alreadyExists = res.alreadyExists ∧
      (processNewComic addComic cache res c).1 = cache ∧
      (processNewComic addComic cache res c).2.details =
        res.details ++ ["❌ Failed: " ++ titleOf c ++ " - " ++ (addComic c).message]) := by
  have hmatch : (match c.id with
      | some m => m != 0 && decide (m ∈ cache)
      | none => false) = false := by
    rw [hid]
    simp [hcache]
  have htr : truthyId c.id = true := by
    rw [hid]
    simpa [truthyId] using hn
  have hgetD : c.id.getD 0 = n := by rw [hid]; rfl
  constructor
  · intro hdup
    unfold processNewComic
    rw [hpub]
    simp only [Bool.not_true, Bool.false_eq_true, if_false, hmatch, hfail, hdup, if_true,
      htr, hgetD]
    refine ⟨?_, ?_, ?_⟩ <;> first
      | trivial
      | exact mem_cacheAdd_self cache n
  · intro hdup
    unfold processNewComic
    rw [hpub]
    simp only [Bool.not_true, Bool.false_eq_true, if_false, hmatch, hfail, hdup]
    refine ⟨?_, ?_, ?_, ?_⟩ <;> trivial

/-- A library add oracle that always fails with a duplicate-constraint
message. -/
def addDupOracle : Comic → AddResult :=
  fun _ => ⟨false, none, "UNIQUE constraint failed: volumes.comicvine_id"⟩

/-- A library add oracle that always fails with an unrelated error. -/
def addErrOracle : Comic → AddResult :=
  fun _ => ⟨false, none, "HTTP 500"⟩

/-- Witness for C8 at concrete inputs: a duplicate-constraint failure
counts as already existing and caches the id; an HTTP 500 failure
counts as failed and records the error text. -/
theorem c8_duplicate_policy_witness :
    (processNewComic addDupOracle [] emptyResults sampleMarvelComic).2.alreadyExists = 1 ∧
    (5 : Int) ∈ (processNewComic addDupOracle [] emptyResults sampleMarvelComic).1 ∧
    (processNewComic addErrOracle [] emptyResults sampleMarvelComic).2.failedToAdd = 1 := by
  refine ⟨?_, ?_, ?_⟩
  · exact ((c8_duplicate_policy addDupOracle sampleMarvelComic 5 [] emptyResults
      (by decide) (by decide) (by decide) (by decide) (by decide)).1 (by decide)).1
  · exact ((c8_duplicate_policy addDupOracle sampleMarvelComic 5 [] emptyResults
      (by decide) (by decide) (by decide) (by decide) (by decide)).1 (by decide)).2.2
  · exact ((c8_duplicate_policy addErrOracle sampleMarvelComic 5 [] emptyResults
      (by decide) (by decide) (by decide) (by decide) (by decide)).2 (by decide)).1

end KapowarrBot
